import Mathlib

/-!
Verification of the bet-placement and settlement core of a play-money
sports-betting backend (`src/main.py`, schemas in `src/schemas.py`).

Embedding conventions:
* Money, odds and payouts are exact rationals (`ℚ`); Python's `round(x, 2)`
  is modelled as round-half-to-even at two decimal places.
* The MongoDB store is a `DB` record: the `bettor` and `event` collections
  are maps from ids (`Nat`) to optional documents; the `bet` collection is a
  list, a bet's id being its position (ids are opaque and unique, which a
  list index provides; `create_document` returns the id of the inserted
  document).
* Duck-typed field access is kept where the code relies on it:
  `bettor.get("balance", 1000.0)` becomes an `Option ℚ` field read with a
  default, and Mongo's `$inc` on a possibly-missing field starts from `0`.
  `$inc`/`$set` via `update_one` on an absent document is a no-op.
* Timestamps (`start_time`, `created_at`, `updated_at`) carry no logic and
  are omitted, as are HTTP routing, id-string parsing and serialization.
* An `HTTPException` aborts the handler leaving the store untouched, so each
  handler returns `Except HTTPError result × DB`, the second component being
  the store after the call.
-/

namespace Betting

/-- An outcome embedded in an event: `class Outcome` in `schemas.py`
(`name`, `odds`). -/
structure Outcome where
  name : String
  odds : ℚ
deriving DecidableEq

/-- An event document: `class Event` in `schemas.py` (`start_time` omitted,
see module docstring). `status` is a free string ("open" / "closed" /
"settled" per the schema description). -/
structure Event where
  title : String
  category : String
  status : String
  outcomes : List Outcome
  result : Option String
deriving DecidableEq

/-- A bettor document: `class Bettor` in `schemas.py`. `balance` is optional
because `place_bet` reads it with `bettor.get("balance", 1000.0)`, i.e. the
stored document may lack the field. -/
structure Bettor where
  display_name : String
  balance : Option ℚ
deriving DecidableEq

/-- A bet document: `class Bet` in `schemas.py`. -/
structure Bet where
  user_id : Nat
  event_id : Nat
  outcome : String
  amount : ℚ
  odds_at_bet : ℚ
  status : String
  potential_payout : ℚ
  settled_payout : Option ℚ
deriving DecidableEq

/-- A raised `fastapi.HTTPException` (`status_code`, `detail`). -/
structure HTTPError where
  status_code : Nat
  detail : String
deriving DecidableEq

/-- The MongoDB store: collections `bettor`, `event`, `bet`. -/
structure DB where
  bettors : Nat → Option Bettor
  events : Nat → Option Event
  bets : List Bet

/-- Request body of `POST /api/bets` (`class PlaceBet` in `main.py`). -/
structure PlaceBet where
  bettor_id : Nat
  event_id : Nat
  outcome : String
  amount : ℚ

/-- Response of `place_bet`: `{"id": bet_id, "potential_payout": potential}`. -/
structure PlaceBetResult where
  id : Nat
  potential_payout : ℚ
deriving DecidableEq

/-- Request body of `POST /api/events/settle` (`class SettleEvent`). -/
structure SettleEvent where
  event_id : Nat
  result : String

/-- Response of `settle_event`: `{"status": "settled"}`. -/
structure SettleResult where
  status : String
deriving DecidableEq

instance {ε α : Type} [DecidableEq ε] [DecidableEq α] : DecidableEq (Except ε α) :=
  fun a b =>
    match a, b with
    | .ok x, .ok y =>
      if h : x = y then isTrue (by rw [h]) else isFalse (by simp [h])
    | .error x, .error y =>
      if h : x = y then isTrue (by rw [h]) else isFalse (by simp [h])
    | .ok _, .error _ => isFalse (by simp)
    | .error _, .ok _ => isFalse (by simp)

/-- Round a rational to the nearest integer, ties to the even integer:
the rounding of Python 3's built-in `round`. -/
def roundHalfToEven (x : ℚ) : ℤ :=
  let f : ℤ := ⌊x⌋
  let frac : ℚ := x - f
  if frac < 1/2 then f
  else if 1/2 < frac then f + 1
  else if f % 2 = 0 then f else f + 1

/-- Python's `round(x, 2)`. -/
def round2 (x : ℚ) : ℚ := (roundHalfToEven (x * 100) : ℚ) / 100

/-- The settlement payout of a bet, `round(amount * odds_at_bet, 2)`
(`main.py` lines 212-213; `get` defaults never fire on documents our
operations insert, which always carry both fields). -/
def payoutOf (b : Bet) : ℚ := round2 (b.amount * b.odds_at_bet)

/-- The `for o in event["outcomes"]` search in `place_bet` (lines 143-147):
first outcome whose `name` equals the requested one. -/
def findOutcome (outcomes : List Outcome) (name : String) : Option Outcome :=
  outcomes.find? (fun o => o.name == name)

/-- Modelled from the spec: `database.create_document` (imported by
`main.py` from `database.py`, which is not under `src/`). Per §6
(`insertBet(bet) -> Id`) it inserts the document into the collection and
returns the new document's id; with list position as id this is an append
returning the previous length. -/
def create_document (bets : List Bet) (bet : Bet) : Nat × List Bet :=
  (bets.length, bets ++ [bet])

/-- `POST /api/bets` (`place_bet`, `main.py` lines 128-175). -/
def place_bet (db : DB) (payload : PlaceBet) :
    Except HTTPError PlaceBetResult × DB :=
  match db.bettors payload.bettor_id with
  | none => (.error ⟨404, "Bettor not found"⟩, db)
  | some bettor =>
    match db.events payload.event_id with
    | none => (.error ⟨404, "Event not found"⟩, db)
    | some event =>
      if event.status ≠ "open" then
        (.error ⟨400, "Event not open for betting"⟩, db)
      else
        match findOutcome event.outcomes payload.outcome with
        | none => (.error ⟨400, "Invalid outcome for this event"⟩, db)
        | some chosen =>
          if payload.amount ≤ 0 then
            (.error ⟨400, "Invalid bet amount"⟩, db)
          else
            -- balance = float(bettor.get("balance", 1000.0))
            if payload.amount > bettor.balance.getD 1000 then
              (.error ⟨400, "Insufficient balance"⟩, db)
            else
              let potential := round2 (payload.amount * chosen.odds)
              let bet : Bet :=
                { user_id := payload.bettor_id
                  event_id := payload.event_id
                  outcome := payload.outcome
                  amount := payload.amount
                  odds_at_bet := chosen.odds
                  status := "pending"        -- schema default
                  potential_payout := potential
                  settled_payout := none }
              let inserted := create_document db.bets bet
              -- $inc {"balance": -amount}: a missing field is created from 0
              let bettors' : Nat → Option Bettor := fun i =>
                if i = payload.bettor_id then
                  some { bettor with
                          balance := some (bettor.balance.getD 0 - payload.amount) }
                else db.bettors i
              (.ok ⟨inserted.1, potential⟩,
               { db with bets := inserted.2, bettors := bettors' })

/-- `update_one` on `bettor` with `$inc {"balance": delta}`: no-op when no
document matches; a missing `balance` field is created starting from 0. -/
def creditBettor (bettors : Nat → Option Bettor) (uid : Nat) (delta : ℚ) :
    Nat → Option Bettor :=
  fun i =>
    if i = uid then
      (bettors uid).map (fun br => { br with balance := some (br.balance.getD 0 + delta) })
    else bettors i

/-- Replace the element at position `n` (the Mongo `update_one` by `_id` on
the `bet` collection applied to its stored document). -/
def updateNth (l : List Bet) (n : Nat) (f : Bet → Bet) : List Bet :=
  match l, n with
  | [], _ => []
  | b :: t, 0 => f b :: t
  | b :: t, n + 1 => b :: updateNth t n f

/-- One iteration of the winning-bet loop in `settle_event` (lines 211-215):
`$set` the stored bet to won with its payout, then `$inc` the owning
bettor's balance by that payout. `p.1` is the bet's id, `p.2` the document
snapshot returned by the `find`. -/
def settleWinningBet (db : DB) (p : Nat × Bet) : DB :=
  let payout := payoutOf p.2
  { db with
    bets := updateNth db.bets p.1
      (fun b => { b with status := "won", settled_payout := some payout })
    bettors := creditBettor db.bettors p.2.user_id payout }

/-- `POST /api/events/settle` (`settle_event`, `main.py` lines 192-223). -/
def settle_event (db : DB) (payload : SettleEvent) :
    Except HTTPError SettleResult × DB :=
  match db.events payload.event_id with
  | none => (.error ⟨404, "Event not found"⟩, db)
  | some ev =>
    if !(ev.outcomes.any (fun o => o.name == payload.result)) then
      (.error ⟨400, "Result is not a valid outcome"⟩, db)
    else
      -- $set {"status": "settled", "result": payload.result}
      let db1 : DB :=
        { db with events := fun i =>
            if i = payload.event_id then
              some { ev with status := "settled", result := some payload.result }
            else db.events i }
      -- winning_bets = find({"event_id": ev_id, "outcome": result})
      let winning := db1.bets.enum.filter
        (fun p => p.2.event_id == payload.event_id && p.2.outcome == payload.result)
      let db2 := winning.foldl settleWinningBet db1
      -- update_many({"event_id": ev_id, "outcome": {"$ne": result}},
      --             {"$set": {"status": "lost", "settled_payout": 0.0}})
      let db3 : DB :=
        { db2 with bets := db2.bets.map (fun b =>
            if b.event_id == payload.event_id && b.outcome != payload.result then
              { b with status := "lost", settled_payout := some 0 }
            else b) }
      (.ok ⟨"settled"⟩, db3)

/-- The event document after the settlement `$set`. -/
def settledEvent (ev : Event) (result : String) : Event :=
  { ev with status := "settled", result := some result }

/-- Total payout credited to bettor `uid` when `result` wins event `e`:
the sum of `round(amount * odds_at_bet, 2)` over that bettor's bets on the
event whose chosen outcome equals `result`. -/
def winningPayoutSum (bets : List Bet) (e : Nat) (result : String) (uid : Nat) : ℚ :=
  ((bets.filter (fun b => b.user_id == uid && (b.event_id == e && b.outcome == result))).map
    payoutOf).sum

/-- The total payout the winning-bet loop credits to bettor `uid` from the
listed (id, bet) pairs. -/
def winCredit (uid : Nat) (w : List (Nat × Bet)) : ℚ :=
  ((w.filter (fun p => p.2.user_id == uid)).map (fun p => payoutOf p.2)).sum

/-- A hypothetical external mutation of an event's outcome list (the spec's
"(hypothetically) altered after placement", §8): not an operation of
`main.py`, used only to state the odds-snapshot frame property. -/
def setEventOdds (db : DB) (e : Nat) (newOutcomes : List Outcome) : DB :=
  { db with events := fun i =>
      if i = e then (db.events e).map (fun ev => { ev with outcomes := newOutcomes })
      else db.events i }

/-- Written from the spec's words (§4.1): the six placement preconditions in
the spec's order — bettor exists, event exists, event open, outcome name
matches, amount positive, amount within balance — returning the failure of
the first violated one, `none` when all pass. Used to state that `place_bet`
reports exactly the first violated precondition. -/
def specFirstViolation (db : DB) (p : PlaceBet) : Option HTTPError :=
  match db.bettors p.bettor_id with
  | none => some ⟨404, "Bettor not found"⟩
  | some bettor =>
    match db.events p.event_id with
    | none => some ⟨404, "Event not found"⟩
    | some event =>
      if event.status ≠ "open" then some ⟨400, "Event not open for betting"⟩
      else
        match findOutcome event.outcomes p.outcome with
        | none => some ⟨400, "Invalid outcome for this event"⟩
        | some _ =>
          if p.amount ≤ 0 then some ⟨400, "Invalid bet amount"⟩
          else if p.amount > bettor.balance.getD 1000 then
            some ⟨400, "Insufficient balance"⟩
          else none

/-- The `Bet` document `place_bet` inserts once all preconditions pass
(`main.py` lines 162-169), given the request and the matched outcome. -/
def newBetOf (p : PlaceBet) (chosen : Outcome) : Bet :=
  { user_id := p.bettor_id
    event_id := p.event_id
    outcome := p.outcome
    amount := p.amount
    odds_at_bet := chosen.odds
    status := "pending"
    potential_payout := round2 (p.amount * chosen.odds)
    settled_payout := none }

/-! ### Concrete fixtures (the seed event of `main.py` lines 54-65 and small
bettor/bet populations used to evaluate the operations on closed inputs) -/

/-- The first seed event: outcomes Team Red at 1.9, Draw at 3.2, Team Blue
at 2.1, status open. -/
def evA : Event :=
  { title := "Team Red vs Team Blue"
    category := "Soccer"
    status := "open"
    outcomes := [⟨"Team Red", 19/10⟩, ⟨"Draw", 16/5⟩, ⟨"Team Blue", 21/10⟩]
    result := none }

/-- One bettor with the default balance 1000, the seed event, no bets. -/
def dbA : DB :=
  { bettors := fun i => if i = 1 then some ⟨"alice", some 1000⟩ else none
    events := fun i => if i = 1 then some evA else none
    bets := [] }

/-- A pending 100-stake bet on "Team Red" at the locked odds 1.9. -/
def betRed : Bet := ⟨1, 1, "Team Red", 100, 19/10, "pending", 190, none⟩

/-- A pending 50-stake bet on "Draw" at the locked odds 3.2. -/
def betDraw : Bet := ⟨2, 1, "Draw", 50, 16/5, "pending", 160, none⟩

/-- Two bettors after their placements debited them (1000-100 and 1000-50),
with their two pending bets on the seed event. -/
def dbB : DB :=
  { bettors := fun i =>
      if i = 1 then some ⟨"alice", some 900⟩
      else if i = 2 then some ⟨"bob", some 950⟩ else none
    events := fun i => if i = 1 then some evA else none
    bets := [betRed, betDraw] }

/-- The winning bet of `dbB` as it looks after a first settlement. -/
def betWon : Bet := ⟨1, 1, "Team Red", 100, 19/10, "won", 190, some 190⟩

/-- The seed event after settlement with result "Team Red". -/
def evS : Event := { evA with status := "settled", result := some "Team Red" }

/-- A store in which the event is already settled and its winning bet was
already paid out (alice holds 900 + 190). -/
def dbS : DB :=
  { bettors := fun i => if i = 1 then some ⟨"alice", some 1090⟩ else none
    events := fun i => if i = 1 then some evS else none
    bets := [betWon] }

/-- A bettor document that lacks the `balance` field, with the seed event. -/
def dbN : DB :=
  { bettors := fun i => if i = 1 then some ⟨"carol", none⟩ else none
    events := fun i => if i = 1 then some evA else none
    bets := [] }

/-! ### Helper lemmas -/

theorem updateNth_length (l : List Bet) (n : Nat) (f : Bet → Bet) :
    (updateNth l n f).length = l.length := by
  induction l generalizing n with
  | nil => rfl
  | cons b t ih =>
    cases n with
    | zero => rfl
    | succ m => simp [updateNth, ih]

theorem updateNth_getElem? (l : List Bet) (n : Nat) (f : Bet → Bet) (i : Nat) :
    (updateNth l n f)[i]? = if i = n then (l[n]?).map f else l[i]? := by
  induction l generalizing n i with
  | nil => simp [updateNth]
  | cons b t ih =>
    cases n with
    | zero =>
      cases i with
      | zero => simp [updateNth]
      | succ j => simp [updateNth]
    | succ m =>
      cases i with
      | zero => simp [updateNth]
      | succ j => simpa [updateNth] using ih m j

theorem creditBettor_same (bettors : Nat → Option Bettor) (uid : Nat) (delta : ℚ) :
    creditBettor bettors uid delta uid =
      (bettors uid).map (fun br => { br with balance := some (br.balance.getD 0 + delta) }) := by
  simp [creditBettor]

theorem creditBettor_other (bettors : Nat → Option Bettor) (uid : Nat) (delta : ℚ)
    (i : Nat) (h : i ≠ uid) : creditBettor bettors uid delta i = bettors i := by
  simp [creditBettor, h]

theorem settleWinningBet_events (db : DB) (p : Nat × Bet) :
    (settleWinningBet db p).events = db.events := rfl

theorem foldl_settle_events (w : List (Nat × Bet)) (db : DB) :
    (w.foldl settleWinningBet db).events = db.events := by
  induction w generalizing db with
  | nil => rfl
  | cons p t ih => simpa [List.foldl_cons] using ih (settleWinningBet db p)

theorem foldl_settle_bets_length (w : List (Nat × Bet)) (db : DB) :
    (w.foldl settleWinningBet db).bets.length = db.bets.length := by
  induction w generalizing db with
  | nil => rfl
  | cons p t ih =>
    rw [List.foldl_cons, ih]
    simp [settleWinningBet, updateNth_length]

theorem foldl_settle_bets_frame (w : List (Nat × Bet)) (db : DB) (i : Nat)
    (h : ∀ p ∈ w, p.1 ≠ i) :
    (w.foldl settleWinningBet db).bets[i]? = db.bets[i]? := by
  induction w generalizing db with
  | nil => rfl
  | cons p t ih =>
    have h1 : p.1 ≠ i := h p (List.mem_cons_self p t)
    rw [List.foldl_cons, ih _ (fun q hq => h q (List.mem_cons_of_mem p hq))]
    simp [settleWinningBet, updateNth_getElem?, if_neg (Ne.symm h1)]

theorem foldl_settle_bets_mem (w : List (Nat × Bet)) (db : DB) (i : Nat) (b : Bet)
    (hnd : (w.map Prod.fst).Nodup) (hmem : (i, b) ∈ w) :
    (w.foldl settleWinningBet db).bets[i]? =
      (db.bets[i]?).map
        (fun c => { c with status := "won", settled_payout := some (payoutOf b) }) := by
  induction w generalizing db with
  | nil => cases hmem
  | cons p t ih =>
    rw [List.foldl_cons]
    rcases List.mem_cons.mp hmem with heq | hmem'
    · subst heq
      have hhead : (i ∉ t.map Prod.fst) := by
        simpa using (List.nodup_cons.mp hnd).1
      have hframe : ∀ q ∈ t, q.1 ≠ i := by
        intro q hq hqi
        exact hhead (hqi ▸ List.mem_map_of_mem Prod.fst hq)
      rw [foldl_settle_bets_frame t _ i hframe]
      simp [settleWinningBet, updateNth_getElem?]
    · have hne : p.1 ≠ i := by
        intro hpi
        exact (List.nodup_cons.mp hnd).1
          (hpi ▸ List.mem_map_of_mem Prod.fst hmem')
      rw [ih _ (List.nodup_cons.mp hnd).2 hmem']
      simp [settleWinningBet, updateNth_getElem?, if_neg (Ne.symm hne)]

theorem foldl_settle_bettors_frame (w : List (Nat × Bet)) (db : DB) (uid : Nat)
    (h : ∀ p ∈ w, p.2.user_id ≠ uid) :
    (w.foldl settleWinningBet db).bettors uid = db.bettors uid := by
  induction w generalizing db with
  | nil => rfl
  | cons p t ih =>
    have h1 : p.2.user_id ≠ uid := h p (List.mem_cons_self p t)
    rw [List.foldl_cons, ih _ (fun q hq => h q (List.mem_cons_of_mem p hq))]
    simp [settleWinningBet, creditBettor_other _ _ _ _ (Ne.symm h1)]

theorem foldl_settle_bettors_balance (w : List (Nat × Bet)) (db : DB) (uid : Nat)
    (br : Bettor) (bal : ℚ)
    (h1 : db.bettors uid = some br) (h2 : br.balance = some bal) :
    (w.foldl settleWinningBet db).bettors uid =
      some { br with balance := some (bal + winCredit uid w) } := by
  induction w generalizing db br bal with
  | nil =>
    obtain ⟨dn, obal⟩ := br
    simp only [List.foldl_nil, winCredit, List.filter_nil, List.map_nil,
      List.sum_nil, add_zero]
    rw [h1, show obal = some bal from h2]
  | cons p t ih =>
    rw [List.foldl_cons]
    by_cases hu : p.2.user_id = uid
    · have hstep : (settleWinningBet db p).bettors uid =
          some { br with balance := some (bal + payoutOf p.2) } := by
        simp [settleWinningBet, hu, creditBettor_same, h1, h2]
      have := ih (settleWinningBet db p)
        { br with balance := some (bal + payoutOf p.2) } (bal + payoutOf p.2) hstep rfl
      rw [this]
      simp [winCredit, List.filter_cons, hu, add_assoc]
    · have hstep : (settleWinningBet db p).bettors uid = some br := by
        rw [show (settleWinningBet db p).bettors = creditBettor db.bettors p.2.user_id (payoutOf p.2) from rfl]
        rw [creditBettor_other _ _ _ _ (fun h => hu h.symm), h1]
      have := ih (settleWinningBet db p) br bal hstep h2
      rw [this]
      simp [winCredit, List.filter_cons, hu]

theorem winning_nodup (bets : List Bet) (P : Nat × Bet → Bool) :
    ((bets.enum.filter P).map Prod.fst).Nodup := by
  have h1 : (bets.enum.filter P).Sublist bets.enum := List.filter_sublist _
  have h2 : ((bets.enum.filter P).map Prod.fst).Sublist (bets.enum.map Prod.fst) :=
    h1.map Prod.fst
  exact List.Nodup.sublist h2 (List.nodup_enum_map_fst bets)

theorem enumFrom_filter_map_snd (g : Bet → ℚ) (Q : Bet → Bool) :
    ∀ (l : List Bet) (n : Nat),
      ((l.enumFrom n).filter (fun p => Q p.2)).map (fun p => g p.2) = (l.filter Q).map g
  | [], _ => rfl
  | b :: t, n => by
    simp only [List.enumFrom_cons, List.filter_cons]
    by_cases hb : Q b
    · simp [hb, enumFrom_filter_map_snd g Q t (n + 1)]
    · simp [hb, enumFrom_filter_map_snd g Q t (n + 1)]

theorem winCredit_eq_winningPayoutSum (bets : List Bet) (q : SettleEvent) (uid : Nat) :
    winCredit uid (bets.enum.filter
        (fun p => p.2.event_id == q.event_id && p.2.outcome == q.result)) =
      winningPayoutSum bets q.event_id q.result uid := by
  unfold winCredit winningPayoutSum
  rw [List.filter_filter]
  exact congrArg List.sum (enumFrom_filter_map_snd payoutOf
    (fun b => b.user_id == uid && (b.event_id == q.event_id && b.outcome == q.result))
    bets 0)

/-! ### Characterization of `place_bet` on the success path -/

theorem place_char (db : DB) (p : PlaceBet) (bettor : Bettor) (ev : Event) (chosen : Outcome)
    (hb : db.bettors p.bettor_id = some bettor)
    (he : db.events p.event_id = some ev)
    (hopen : ev.status = "open")
    (hout : findOutcome ev.outcomes p.outcome = some chosen)
    (hpos : 0 < p.amount)
    (hbal : p.amount ≤ bettor.balance.getD 1000) :
    place_bet db p =
      (.ok ⟨db.bets.length, round2 (p.amount * chosen.odds)⟩,
        { db with
          bets := db.bets ++ [newBetOf p chosen]
          bettors := fun i =>
            if i = p.bettor_id then
              some { bettor with balance := some (bettor.balance.getD 0 - p.amount) }
            else db.bettors i }) := by
  simp only [place_bet, hb, he, hout, hopen, create_document]
  rw [if_neg (by simp), if_neg (not_le.mpr hpos), if_neg (not_lt.mpr hbal)]
  rfl

/-! ### Characterization of `settle_event` on the success path -/

theorem settle_fst (db : DB) (q : SettleEvent) (ev : Event)
    (hev : db.events q.event_id = some ev)
    (hval : ev.outcomes.any (fun o => o.name == q.result) = true) :
    (settle_event db q).1 = .ok ⟨"settled"⟩ := by
  simp only [settle_event, hev, hval, Bool.not_true, Bool.false_eq_true, if_false]

theorem settle_events_char (db : DB) (q : SettleEvent) (ev : Event)
    (hev : db.events q.event_id = some ev)
    (hval : ev.outcomes.any (fun o => o.name == q.result) = true) (i : Nat) :
    (settle_event db q).2.events i =
      if i = q.event_id then some (settledEvent ev q.result) else db.events i := by
  simp only [settle_event, hev, hval, Bool.not_true, Bool.false_eq_true, if_false]
  rw [foldl_settle_events]
  rfl

theorem settle_bets_length (db : DB) (q : SettleEvent) (ev : Event)
    (hev : db.events q.event_id = some ev)
    (hval : ev.outcomes.any (fun o => o.name == q.result) = true) :
    (settle_event db q).2.bets.length = db.bets.length := by
  simp only [settle_event, hev, hval, Bool.not_true, Bool.false_eq_true, if_false]
  rw [List.length_map, foldl_settle_bets_length]

theorem settle_bets_won_char (db : DB) (q : SettleEvent) (ev : Event)
    (hev : db.events q.event_id = some ev)
    (hval : ev.outcomes.any (fun o => o.name == q.result) = true)
    (i : Nat) (b : Bet) (hb : db.bets[i]? = some b)
    (he : b.event_id = q.event_id) (ho : b.outcome = q.result) :
    (settle_event db q).2.bets[i]? =
      some { b with status := "won", settled_payout := some (payoutOf b) } := by
  simp only [settle_event, hev, hval, Bool.not_true, Bool.false_eq_true, if_false]
  have hmem : (i, b) ∈ db.bets.enum.filter
      (fun p => p.2.event_id == q.event_id && p.2.outcome == q.result) := by
    rw [List.mem_filter]
    exact ⟨List.mk_mem_enum_iff_getElem?.mpr hb, by simp [he, ho]⟩
  rw [List.getElem?_map,
    foldl_settle_bets_mem _ _ i b (winning_nodup db.bets _) hmem]
  rw [show ({ db with events := fun i => if i = q.event_id then some { ev with status := "settled", result := some q.result } else db.events i } : DB).bets = db.bets from rfl]
  rw [hb]
  simp [ho]

theorem settle_bets_lost_char (db : DB) (q : SettleEvent) (ev : Event)
    (hev : db.events q.event_id = some ev)
    (hval : ev.outcomes.any (fun o => o.name == q.result) = true)
    (i : Nat) (b : Bet) (hb : db.bets[i]? = some b)
    (he : b.event_id = q.event_id) (ho : b.outcome ≠ q.result) :
    (settle_event db q).2.bets[i]? =
      some { b with status := "lost", settled_payout := some 0 } := by
  simp only [settle_event, hev, hval, Bool.not_true, Bool.false_eq_true, if_false]
  have hframe : ∀ p ∈ db.bets.enum.filter
      (fun p => p.2.event_id == q.event_id && p.2.outcome == q.result), p.1 ≠ i := by
    intro p hp hpi
    obtain ⟨j, c⟩ := p
    rw [List.mem_filter] at hp
    have hc : db.bets[j]? = some c := List.mk_mem_enum_iff_getElem?.mp hp.1
    cases hpi
    rw [hb] at hc
    cases Option.some.inj hc
    have := hp.2
    simp only [Bool.and_eq_true, beq_iff_eq] at this
    exact ho this.2
  rw [List.getElem?_map, foldl_settle_bets_frame _ _ i hframe]
  rw [show ({ db with events := fun i => if i = q.event_id then some { ev with status := "settled", result := some q.result } else db.events i } : DB).bets = db.bets from rfl]
  rw [hb]
  simp [he, ho]

theorem settle_bets_other_char (db : DB) (q : SettleEvent) (ev : Event)
    (hev : db.events q.event_id = some ev)
    (hval : ev.outcomes.any (fun o => o.name == q.result) = true)
    (i : Nat) (b : Bet) (hb : db.bets[i]? = some b)
    (he : b.event_id ≠ q.event_id) :
    (settle_event db q).2.bets[i]? = some b := by
  simp only [settle_event, hev, hval, Bool.not_true, Bool.false_eq_true, if_false]
  have hframe : ∀ p ∈ db.bets.enum.filter
      (fun p => p.2.event_id == q.event_id && p.2.outcome == q.result), p.1 ≠ i := by
    intro p hp hpi
    obtain ⟨j, c⟩ := p
    rw [List.mem_filter] at hp
    have hc : db.bets[j]? = some c := List.mk_mem_enum_iff_getElem?.mp hp.1
    cases hpi
    rw [hb] at hc
    cases Option.some.inj hc
    have := hp.2
    simp only [Bool.and_eq_true, beq_iff_eq] at this
    exact he this.1
  rw [List.getElem?_map, foldl_settle_bets_frame _ _ i hframe]
  rw [show ({ db with events := fun i => if i = q.event_id then some { ev with status := "settled", result := some q.result } else db.events i } : DB).bets = db.bets from rfl]
  rw [hb]
  simp [he]

theorem settle_bettors_balance_char (db : DB) (q : SettleEvent) (ev : Event)
    (hev : db.events q.event_id = some ev)
    (hval : ev.outcomes.any (fun o => o.name == q.result) = true)
    (uid : Nat) (br : Bettor) (bal : ℚ)
    (h1 : db.bettors uid = some br) (h2 : br.balance = some bal) :
    (settle_event db q).2.bettors uid =
      some { br with balance := some (bal + winningPayoutSum db.bets q.event_id q.result uid) } := by
  simp only [settle_event, hev, hval, Bool.not_true, Bool.false_eq_true, if_false]
  rw [← winCredit_eq_winningPayoutSum db.bets q uid]
  exact foldl_settle_bettors_balance _ _ uid br bal h1 h2

theorem settle_bettors_frame_char (db : DB) (q : SettleEvent) (ev : Event)
    (hev : db.events q.event_id = some ev)
    (hval : ev.outcomes.any (fun o => o.name == q.result) = true)
    (uid : Nat)
    (h : ∀ b ∈ db.bets, b.event_id = q.event_id → b.outcome = q.result → b.user_id ≠ uid) :
    (settle_event db q).2.bettors uid = db.bettors uid := by
  simp only [settle_event, hev, hval, Bool.not_true, Bool.false_eq_true, if_false]
  rw [show (∀ (d : DB) (x : List Bet), ({ d with bets := x } : DB).bettors = d.bettors) from fun _ _ => rfl]
  rw [foldl_settle_bettors_frame]
  intro p hp
  obtain ⟨j, c⟩ := p
  rw [List.mem_filter] at hp
  have hc : db.bets[j]? = some c := List.mk_mem_enum_iff_getElem?.mp hp.1
  have hcb : c ∈ db.bets := List.getElem?_mem hc
  have := hp.2
  simp only [Bool.and_eq_true, beq_iff_eq] at this
  exact h c hcb this.1 this.2

/-! ### Claims -/

/-- C1: for every placement that passes all six preconditions (bettor found,
storing balance `bal`; event found and open; outcome name matched; amount
positive; amount at most the balance), `place_bet` computes
`potential_payout = round(amount * matched_outcome.odds, 2)`, persists a new
`Bet` with status `pending`, `odds_at_bet` equal to the matched outcome's
odds and that `potential_payout`, decrements the bettor's balance by exactly
`amount`, and returns the new bet's id together with that same
`potential_payout`. -/
theorem C1_place_bet_success (db : DB) (p : PlaceBet) (bettor : Bettor) (ev : Event)
    (chosen : Outcome) (bal : ℚ)
    (hb : db.bettors p.bettor_id = some bettor)
    (hstored : bettor.balance = some bal)
    (he : db.events p.event_id = some ev)
    (hopen : ev.status = "open")
    (hout : findOutcome ev.outcomes p.outcome = some chosen)
    (hpos : 0 < p.amount)
    (hbal : p.amount ≤ bal) :
    (place_bet db p).1 = .ok ⟨db.bets.length, round2 (p.amount * chosen.odds)⟩ ∧
    (place_bet db p).2.bets = db.bets ++ [newBetOf p chosen] ∧
    (newBetOf p chosen).status = "pending" ∧
    (newBetOf p chosen).odds_at_bet = chosen.odds ∧
    (newBetOf p chosen).potential_payout = round2 (p.amount * chosen.odds) ∧
    (place_bet db p).2.bettors p.bettor_id =
      some { bettor with balance := some (bal - p.amount) } := by
  have hc := place_char db p bettor ev chosen hb he hopen hout hpos
    (by rw [hstored]; exact hbal)
  rw [hc]
  refine ⟨rfl, rfl, rfl, rfl, rfl, ?_⟩
  simp [hstored]

/-- Witness for C1: alice (balance 1000) stakes 100 on "Team Red" at
odds 1.9. -/
theorem C1_witness :
    (place_bet dbA ⟨1, 1, "Team Red", 100⟩).1 =
      .ok ⟨dbA.bets.length, round2 (100 * (19/10 : ℚ))⟩ ∧
    (place_bet dbA ⟨1, 1, "Team Red", 100⟩).2.bettors 1 =
      some { (⟨"alice", some 1000⟩ : Bettor) with balance := some (1000 - 100) } := by
  have h := C1_place_bet_success dbA ⟨1, 1, "Team Red", 100⟩ ⟨"alice", some 1000⟩
    evA ⟨"Team Red", 19/10⟩ 1000 rfl rfl rfl rfl rfl (by norm_num) (by norm_num)
  exact ⟨h.1, h.2.2.2.2.2⟩

/-- C2: for every settlement of an existing event with a valid winning
outcome name, every bet on that event whose outcome equals the winning name
becomes `won` with `settled_payout = round(amount * odds_at_bet, 2)`, every
bet on that event whose outcome differs becomes `lost` with
`settled_payout = 0.0`; each bettor's stored balance grows by exactly the
total of the payouts of their winning bets on the event (so by exactly
`round(amount * odds_at_bet, 2)` when they own a single winning bet, the
last conjunct), and a bettor owning no winning bet on the event keeps an
unchanged balance. -/
theorem C2_settle_payouts (db : DB) (q : SettleEvent) (ev : Event)
    (hev : db.events q.event_id = some ev)
    (hval : ev.outcomes.any (fun o => o.name == q.result) = true) :
    (∀ (i : Nat) (b : Bet), db.bets[i]? = some b → b.event_id = q.event_id → b.outcome = q.result →
      (settle_event db q).2.bets[i]? =
        some { b with status := "won", settled_payout := some (payoutOf b) }) ∧
    (∀ (i : Nat) (b : Bet), db.bets[i]? = some b → b.event_id = q.event_id → b.outcome ≠ q.result →
      (settle_event db q).2.bets[i]? =
        some { b with status := "lost", settled_payout := some 0 }) ∧
    (∀ (uid : Nat) (br : Bettor) (bal : ℚ), db.bettors uid = some br → br.balance = some bal →
      (settle_event db q).2.bettors uid =
        some { br with balance := some (bal + winningPayoutSum db.bets q.event_id q.result uid) }) ∧
    (∀ (uid : Nat), (∀ b ∈ db.bets, b.event_id = q.event_id → b.outcome = q.result → b.user_id ≠ uid) →
      (settle_event db q).2.bettors uid = db.bettors uid) ∧
    (∀ (uid : Nat) (br : Bettor) (bal : ℚ) (b : Bet), db.bettors uid = some br → br.balance = some bal →
      db.bets.filter
        (fun c => c.user_id == uid && (c.event_id == q.event_id && c.outcome == q.result)) = [b] →
      (settle_event db q).2.bettors uid =
        some { br with balance := some (bal + payoutOf b) }) := by
  refine ⟨fun i b hb h1 h2 => settle_bets_won_char db q ev hev hval i b hb h1 h2,
    fun i b hb h1 h2 => settle_bets_lost_char db q ev hev hval i b hb h1 h2,
    fun uid br bal h1 h2 => settle_bettors_balance_char db q ev hev hval uid br bal h1 h2,
    fun uid h => settle_bettors_frame_char db q ev hev hval uid h,
    fun uid br bal b h1 h2 hf => ?_⟩
  rw [settle_bettors_balance_char db q ev hev hval uid br bal h1 h2]
  unfold winningPayoutSum
  rw [hf]
  simp

/-- Witness for C2: in `dbB`, settling "Team Red" marks alice's 100-stake
bet won with payout 190 and credits her 900 + 190, and marks bob's 50-stake
"Draw" bet lost with payout 0, his 950 untouched. -/
theorem C2_witness :
    (settle_event dbB ⟨1, "Team Red"⟩).2.bets[0]? =
      some { betRed with status := "won", settled_payout := some (payoutOf betRed) } ∧
    (settle_event dbB ⟨1, "Team Red"⟩).2.bets[1]? =
      some { betDraw with status := "lost", settled_payout := some 0 } ∧
    (settle_event dbB ⟨1, "Team Red"⟩).2.bettors 1 =
      some { (⟨"alice", some 900⟩ : Bettor) with
              balance := some (900 + winningPayoutSum dbB.bets 1 "Team Red" 1) } ∧
    (settle_event dbB ⟨1, "Team Red"⟩).2.bettors 2 = dbB.bettors 2 := by
  have h := C2_settle_payouts dbB ⟨1, "Team Red"⟩ evA rfl rfl
  exact ⟨h.1 0 betRed rfl rfl rfl, h.2.1 1 betDraw rfl rfl (by decide),
    h.2.2.1 1 ⟨"alice", some 900⟩ 900 rfl rfl, h.2.2.2.1 2 (by decide)⟩

/-- C3: a successful settlement returns ok, sets the event's status to
`settled` and its result to the chosen winning outcome name — which names
one of the (unchanged) outcomes, so "result set iff settled and valid"
holds for this event — and afterwards every bet of that event has status
`won` or `lost`, never `pending`. -/
theorem C3_settle_event_state (db : DB) (q : SettleEvent) (ev : Event)
    (hev : db.events q.event_id = some ev)
    (hval : ev.outcomes.any (fun o => o.name == q.result) = true) :
    (settle_event db q).1 = .ok ⟨"settled"⟩ ∧
    (settle_event db q).2.events q.event_id = some (settledEvent ev q.result) ∧
    (settledEvent ev q.result).status = "settled" ∧
    (settledEvent ev q.result).result = some q.result ∧
    (∃ o ∈ (settledEvent ev q.result).outcomes, o.name = q.result) ∧
    (∀ (i : Nat) (b : Bet), (settle_event db q).2.bets[i]? = some b → b.event_id = q.event_id →
      (b.status = "won" ∨ b.status = "lost") ∧ b.status ≠ "pending") := by
  refine ⟨settle_fst db q ev hev hval, ?_, rfl, rfl, ?_, ?_⟩
  · rw [settle_events_char db q ev hev hval q.event_id, if_pos rfl]
  · obtain ⟨o, ho, hname⟩ := List.any_eq_true.mp hval
    exact ⟨o, ho, beq_iff_eq.mp hname⟩
  · intro i b hpost heid
    have hlen : i < db.bets.length := by
      have h1 := (List.getElem?_eq_some_iff.mp hpost).1
      exact settle_bets_length db q ev hev hval ▸ h1
    have hc : db.bets[i]? = some db.bets[i] := List.getElem?_eq_getElem hlen
    by_cases hce : db.bets[i].event_id = q.event_id
    · by_cases hco : db.bets[i].outcome = q.result
      · rw [settle_bets_won_char db q ev hev hval i _ hc hce hco] at hpost
        cases Option.some.inj hpost
        exact ⟨Or.inl rfl, by simp⟩
      · rw [settle_bets_lost_char db q ev hev hval i _ hc hce hco] at hpost
        cases Option.some.inj hpost
        exact ⟨Or.inr rfl, by simp⟩
    · rw [settle_bets_other_char db q ev hev hval i _ hc hce] at hpost
      cases Option.some.inj hpost
      exact absurd heid hce

/-- Witness for C3: settling `dbB` with "Team Red" returns ok, stores the
settled event, and alice's bet (index 0) ends non-pending. -/
theorem C3_witness :
    (settle_event dbB ⟨1, "Team Red"⟩).1 = .ok ⟨"settled"⟩ ∧
    (settle_event dbB ⟨1, "Team Red"⟩).2.events 1 = some (settledEvent evA "Team Red") ∧
    (({ betRed with status := "won", settled_payout := some (payoutOf betRed) } : Bet).status = "won" ∨
      ({ betRed with status := "won", settled_payout := some (payoutOf betRed) } : Bet).status = "lost") ∧
    ({ betRed with status := "won", settled_payout := some (payoutOf betRed) } : Bet).status ≠ "pending" := by
  have h := C3_settle_event_state dbB ⟨1, "Team Red"⟩ evA rfl rfl
  have hbet := h.2.2.2.2.2 0
    { betRed with status := "won", settled_payout := some (payoutOf betRed) }
    (settle_bets_won_char dbB ⟨1, "Team Red"⟩ evA rfl rfl 0 betRed rfl rfl rfl) rfl
  exact ⟨h.1, h.2.1, hbet.1, hbet.2⟩

/-- C4: whenever `place_bet` or `settle_event` reports an error, the store
is returned exactly as it was — no bet inserted, no balance changed, no
event or bet field mutated; in particular an over-balance placement never
partially debits and a settlement with an unknown result string mutates
nothing. -/
theorem C4_failfast :
    (∀ (db : DB) (p : PlaceBet) (e : HTTPError),
      (place_bet db p).1 = .error e → (place_bet db p).2 = db) ∧
    (∀ (db : DB) (q : SettleEvent) (e : HTTPError),
      (settle_event db q).1 = .error e → (settle_event db q).2 = db) := by
  constructor
  · intro db p e h
    cases hb : db.bettors p.bettor_id with
    | none => simp [place_bet, hb]
    | some bettor =>
      cases he : db.events p.event_id with
      | none => simp [place_bet, hb, he]
      | some ev =>
        by_cases hopen : ev.status ≠ "open"
        · simp [place_bet, hb, he, hopen]
        · cases hout : findOutcome ev.outcomes p.outcome with
          | none => simp [place_bet, hb, he, not_not.mp hopen, hout]
          | some chosen =>
            by_cases hpos : p.amount ≤ 0
            · simp [place_bet, hb, he, not_not.mp hopen, hout, hpos]
            · by_cases hbal : p.amount > bettor.balance.getD 1000
              · simp [place_bet, hb, he, not_not.mp hopen, hout, hpos, hbal]
              · simp [place_bet, hb, he, not_not.mp hopen, hout, hpos, hbal] at h
  · intro db q e h
    cases he : db.events q.event_id with
    | none => simp [settle_event, he]
    | some ev =>
      cases hany : ev.outcomes.any (fun o => o.name == q.result) with
      | false => simp [settle_event, he, hany]
      | true => simp [settle_event, he, hany] at h

/-- Witness for C4: an over-balance placement (2000 against 1000) and an
unknown-result settlement both error and leave `dbA` untouched. -/
theorem C4_witness :
    (place_bet dbA ⟨1, 1, "Team Red", 2000⟩).1 = .error ⟨400, "Insufficient balance"⟩ ∧
    (place_bet dbA ⟨1, 1, "Team Red", 2000⟩).2 = dbA ∧
    (settle_event dbA ⟨1, "Team Green"⟩).1 = .error ⟨400, "Result is not a valid outcome"⟩ ∧
    (settle_event dbA ⟨1, "Team Green"⟩).2 = dbA := by
  refine ⟨?e1, C4_failfast.1 dbA ⟨1, 1, "Team Red", 2000⟩ ⟨400, "Insufficient balance"⟩ ?e1,
    ?e2, C4_failfast.2 dbA ⟨1, "Team Green"⟩ ⟨400, "Result is not a valid outcome"⟩ ?e2⟩
  case e1 =>
    have : ((2000 : ℚ) > (1000 : ℚ)) := by norm_num
    simp [place_bet, dbA, evA, findOutcome, this]
    norm_num
  case e2 => rfl

/-- C5: `place_bet` checks its six preconditions in the spec's order
(bettor exists, event exists, event open, outcome matches, amount positive,
amount within balance): its error is exactly the first violated
precondition per `specFirstViolation`, and in particular a placement on a
non-open event always fails with the "Event not open for betting" error,
whatever the amount or outcome. -/
theorem C5_check_order :
    (∀ (db : DB) (p : PlaceBet) (e : HTTPError),
      (place_bet db p).1 = .error e ↔ specFirstViolation db p = some e) ∧
    (∀ (db : DB) (p : PlaceBet) (bettor : Bettor) (ev : Event),
      db.bettors p.bettor_id = some bettor → db.events p.event_id = some ev →
      ev.status ≠ "open" →
      (place_bet db p).1 = .error ⟨400, "Event not open for betting"⟩) := by
  constructor
  · intro db p e
    cases hb : db.bettors p.bettor_id with
    | none => simp [place_bet, specFirstViolation, hb]
    | some bettor =>
      cases he : db.events p.event_id with
      | none => simp [place_bet, specFirstViolation, hb, he]
      | some ev =>
        by_cases hopen : ev.status ≠ "open"
        · simp [place_bet, specFirstViolation, hb, he, hopen]
        · cases hout : findOutcome ev.outcomes p.outcome with
          | none => simp [place_bet, specFirstViolation, hb, he, not_not.mp hopen, hout]
          | some chosen =>
            by_cases hpos : p.amount ≤ 0
            · simp [place_bet, specFirstViolation, hb, he, not_not.mp hopen, hout, hpos]
            · by_cases hbal : p.amount > bettor.balance.getD 1000
              · simp [place_bet, specFirstViolation, hb, he, not_not.mp hopen, hout,
                  hpos, hbal]
              · simp [place_bet, specFirstViolation, hb, he, not_not.mp hopen, hout,
                  hpos, hbal]
  · intro db p bettor ev hb he hopen
    simp only [place_bet, hb, he]
    rw [if_pos hopen]

/-- Witness for C5: the over-balance placement's error agrees with the
spec-order first violation, and a placement on the already-settled event of
`dbS` fails with the event-not-open error despite valid outcome and
amount. -/
theorem C5_witness :
    ((place_bet dbA ⟨1, 1, "Team Red", 2000⟩).1 = .error ⟨400, "Insufficient balance"⟩ ↔
      specFirstViolation dbA ⟨1, 1, "Team Red", 2000⟩ = some ⟨400, "Insufficient balance"⟩) ∧
    (place_bet dbS ⟨1, 1, "Team Red", 5⟩).1 = .error ⟨400, "Event not open for betting"⟩ := by
  refine ⟨C5_check_order.1 dbA ⟨1, 1, "Team Red", 2000⟩ ⟨400, "Insufficient balance"⟩,
    C5_check_order.2 dbS ⟨1, 1, "Team Red", 5⟩ ⟨"alice", some 1090⟩ evS rfl rfl ?_⟩
  simp [evS, evA]

/-- C6: `settle_event` never looks at the event's status: an event that is
already `settled` is settled again without error, and the full payout pass
runs again — matching bets are re-marked won with their payout and each
stored balance is credited with the event's winning payouts once more. -/
theorem C6_resettle (db : DB) (q : SettleEvent) (ev : Event)
    (hev : db.events q.event_id = some ev)
    (hval : ev.outcomes.any (fun o => o.name == q.result) = true)
    (_hsettled : ev.status = "settled") :
    (settle_event db q).1 = .ok ⟨"settled"⟩ ∧
    (∀ (i : Nat) (b : Bet), db.bets[i]? = some b → b.event_id = q.event_id →
      b.outcome = q.result →
      (settle_event db q).2.bets[i]? =
        some { b with status := "won", settled_payout := some (payoutOf b) }) ∧
    (∀ (uid : Nat) (br : Bettor) (bal : ℚ), db.bettors uid = some br →
      br.balance = some bal →
      (settle_event db q).2.bettors uid =
        some { br with balance := some (bal + winningPayoutSum db.bets q.event_id q.result uid) }) :=
  ⟨settle_fst db q ev hev hval,
    fun i b hb h1 h2 => settle_bets_won_char db q ev hev hval i b hb h1 h2,
    fun uid br bal h1 h2 => settle_bettors_balance_char db q ev hev hval uid br bal h1 h2⟩

/-- Witness for C6: in `dbS` the event is already settled and its bet was
already paid; settling "Team Red" again succeeds, re-marks the bet won and
credits alice a second time. -/
theorem C6_witness :
    evS.status = "settled" ∧
    (settle_event dbS ⟨1, "Team Red"⟩).1 = .ok ⟨"settled"⟩ ∧
    (settle_event dbS ⟨1, "Team Red"⟩).2.bets[0]? =
      some { betWon with status := "won", settled_payout := some (payoutOf betWon) } ∧
    (settle_event dbS ⟨1, "Team Red"⟩).2.bettors 1 =
      some { (⟨"alice", some 1090⟩ : Bettor) with
              balance := some (1090 + winningPayoutSum dbS.bets 1 "Team Red" 1) } := by
  have h := C6_resettle dbS ⟨1, "Team Red"⟩ evS rfl rfl rfl
  exact ⟨rfl, h.1, h.2.1 0 betWon rfl rfl rfl, h.2.2 1 ⟨"alice", some 1090⟩ 1090 rfl rfl⟩

/-- C7: `odds_at_bet` is a value snapshot. After a successful placement, an
external change of the event's outcome odds leaves the stored bet — in
particular its `odds_at_bet`, the odds matched at placement — untouched,
and a subsequent settlement pays `round(amount * odds_at_bet, 2)` computed
from that snapshot, not from the event's current odds. -/
theorem C7_odds_snapshot (db : DB) (p : PlaceBet) (bettor : Bettor) (ev : Event)
    (chosen : Outcome)
    (hb : db.bettors p.bettor_id = some bettor)
    (he : db.events p.event_id = some ev)
    (hopen : ev.status = "open")
    (hout : findOutcome ev.outcomes p.outcome = some chosen)
    (hpos : 0 < p.amount)
    (hbal : p.amount ≤ bettor.balance.getD 1000)
    (newOdds : List Outcome)
    (hval2 : newOdds.any (fun o => o.name == p.outcome) = true) :
    (newBetOf p chosen).odds_at_bet = chosen.odds ∧
    (setEventOdds (place_bet db p).2 p.event_id newOdds).bets[db.bets.length]? =
      some (newBetOf p chosen) ∧
    (settle_event (setEventOdds (place_bet db p).2 p.event_id newOdds)
        ⟨p.event_id, p.outcome⟩).2.bets[db.bets.length]? =
      some { newBetOf p chosen with
              status := "won", settled_payout := some (round2 (p.amount * chosen.odds)) } := by
  have hc := place_char db p bettor ev chosen hb he hopen hout hpos hbal
  have hbets : (setEventOdds (place_bet db p).2 p.event_id newOdds).bets[db.bets.length]? =
      some (newBetOf p chosen) := by
    rw [show (setEventOdds (place_bet db p).2 p.event_id newOdds).bets = (place_bet db p).2.bets from rfl]
    rw [hc]
    exact List.getElem?_concat_length db.bets (newBetOf p chosen)
  refine ⟨rfl, hbets, ?_⟩
  have hev2 : (setEventOdds (place_bet db p).2 p.event_id newOdds).events p.event_id =
      some { ev with outcomes := newOdds } := by
    rw [show (setEventOdds (place_bet db p).2 p.event_id newOdds).events p.event_id
        = ((place_bet db p).2.events p.event_id).map (fun e => { e with outcomes := newOdds })
        from by simp [setEventOdds]]
    rw [hc]
    rw [show ({ db with bets := db.bets ++ [newBetOf p chosen], bettors := fun i => if i = p.bettor_id then some { bettor with balance := some (bettor.balance.getD 0 - p.amount) } else db.bettors i } : DB).events = db.events from rfl]
    rw [he]
    rfl
  exact settle_bets_won_char _ ⟨p.event_id, p.outcome⟩ { ev with outcomes := newOdds }
    hev2 hval2 db.bets.length (newBetOf p chosen) hbets rfl rfl

/-- Witness for C7: alice places 100 on "Team Red" at odds 1.9; the event's
"Team Red" odds are then (hypothetically) changed to 5; settling "Team Red"
still pays round(100 * 1.9, 2) = 190, not 500. -/
theorem C7_witness :
    (newBetOf ⟨1, 1, "Team Red", 100⟩ ⟨"Team Red", 19/10⟩).odds_at_bet = (19/10 : ℚ) ∧
    (settle_event (setEventOdds (place_bet dbA ⟨1, 1, "Team Red", 100⟩).2 1
        [⟨"Team Red", 5⟩, ⟨"Draw", 16/5⟩, ⟨"Team Blue", 21/10⟩])
        ⟨1, "Team Red"⟩).2.bets[0]? =
      some { newBetOf ⟨1, 1, "Team Red", 100⟩ ⟨"Team Red", 19/10⟩ with
              status := "won",
              settled_payout := some (round2 ((100 : ℚ) * (19/10))) } := by
  have h := C7_odds_snapshot dbA ⟨1, 1, "Team Red", 100⟩ ⟨"alice", some 1000⟩ evA
    ⟨"Team Red", 19/10⟩ rfl rfl rfl rfl (by norm_num) (by norm_num)
    [⟨"Team Red", 5⟩, ⟨"Draw", 16/5⟩, ⟨"Team Blue", 21/10⟩] rfl
  exact ⟨h.1, h.2.2⟩

section

attribute [local semireducible] Rat.mul Rat.add Rat.inv Rat.sub

/-- C8: the concrete scenario, computed exactly: with outcomes Team Red at
1.9, Draw at 3.2, Team Blue at 2.1 and alice holding 1000, placing 100 on
"Team Red" returns potential_payout 190 and leaves balance 900; settling
with "Team Red" then stores the bet as won with settled_payout 190 and
balance 1090. -/
theorem C8_scenario :
    (place_bet dbA ⟨1, 1, "Team Red", 100⟩).1 = .ok ⟨0, 190⟩ ∧
    (place_bet dbA ⟨1, 1, "Team Red", 100⟩).2.bettors 1 = some ⟨"alice", some 900⟩ ∧
    (settle_event (place_bet dbA ⟨1, 1, "Team Red", 100⟩).2 ⟨1, "Team Red"⟩).1 =
      .ok ⟨"settled"⟩ ∧
    (settle_event (place_bet dbA ⟨1, 1, "Team Red", 100⟩).2 ⟨1, "Team Red"⟩).2.bets[0]? =
      some ⟨1, 1, "Team Red", 100, 19/10, "won", 190, some 190⟩ ∧
    (settle_event (place_bet dbA ⟨1, 1, "Team Red", 100⟩).2 ⟨1, "Team Red"⟩).2.bettors 1 =
      some ⟨"alice", some 1090⟩ := by
  refine ⟨?_, ?_, ?_, ?_, ?_⟩ <;> decide

end

/-- C9: when the stored bettor document lacks a `balance` field, the
insufficient-balance precondition is evaluated against the default 1000.0:
with the other preconditions satisfied, any amount up to 1000 passes the
check and the placement succeeds, while an amount above 1000 fails with
"Insufficient balance". -/
theorem C9_missing_balance_default (db : DB) (p : PlaceBet) (bettor : Bettor) (ev : Event)
    (chosen : Outcome)
    (hb : db.bettors p.bettor_id = some bettor)
    (hnone : bettor.balance = none)
    (he : db.events p.event_id = some ev)
    (hopen : ev.status = "open")
    (hout : findOutcome ev.outcomes p.outcome = some chosen)
    (hpos : 0 < p.amount) :
    (p.amount ≤ 1000 →
      (place_bet db p).1 = .ok ⟨db.bets.length, round2 (p.amount * chosen.odds)⟩) ∧
    (1000 < p.amount →
      (place_bet db p).1 = .error ⟨400, "Insufficient balance"⟩) := by
  constructor
  · intro hle
    have hc := place_char db p bettor ev chosen hb he hopen hout hpos
      (by rw [hnone]; exact hle)
    rw [hc]
  · intro hgt
    simp only [place_bet, hb, he, hout]
    rw [if_neg (by simp [hopen]), if_neg (not_le.mpr hpos),
      if_pos (by rw [hnone]; exact hgt)]

/-- Witness for C9: carol's document stores no balance; a stake of 800
passes the balance check and succeeds, a stake of 1200 is rejected as
insufficient. -/
theorem C9_witness :
    (place_bet dbN ⟨1, 1, "Team Red", 800⟩).1 =
      .ok ⟨dbN.bets.length, round2 (800 * (19/10 : ℚ))⟩ ∧
    (place_bet dbN ⟨1, 1, "Team Red", 1200⟩).1 = .error ⟨400, "Insufficient balance"⟩ := by
  refine ⟨(C9_missing_balance_default dbN ⟨1, 1, "Team Red", 800⟩ ⟨"carol", none⟩ evA
      ⟨"Team Red", 19/10⟩ rfl rfl rfl rfl rfl (by norm_num)).1 (by norm_num),
    (C9_missing_balance_default dbN ⟨1, 1, "Team Red", 1200⟩ ⟨"carol", none⟩ evA
      ⟨"Team Red", 19/10⟩ rfl rfl rfl rfl rfl (by norm_num)).2 (by norm_num)⟩

/-- C10: settling an existing event that has no bets succeeds: the event is
stored as settled with the chosen result (other events untouched), the bet
collection and every bettor are unchanged, and `{"status": "settled"}` is
returned. -/
theorem C10_settle_without_bets (db : DB) (q : SettleEvent) (ev : Event)
    (hev : db.events q.event_id = some ev)
    (hval : ev.outcomes.any (fun o => o.name == q.result) = true)
    (hnone : ∀ b ∈ db.bets, b.event_id ≠ q.event_id) :
    (settle_event db q).1 = .ok ⟨"settled"⟩ ∧
    (settle_event db q).2.events q.event_id = some (settledEvent ev q.result) ∧
    (∀ (i : Nat), i ≠ q.event_id → (settle_event db q).2.events i = db.events i) ∧
    (settle_event db q).2.bets = db.bets ∧
    (∀ (uid : Nat), (settle_event db q).2.bettors uid = db.bettors uid) := by
  refine ⟨settle_fst db q ev hev hval, ?_, ?_, ?_, ?_⟩
  · rw [settle_events_char db q ev hev hval q.event_id, if_pos rfl]
  · intro i hi
    rw [settle_events_char db q ev hev hval i, if_neg hi]
  · apply List.ext_getElem?
    intro i
    by_cases hlen : i < db.bets.length
    · have hc : db.bets[i]? = some db.bets[i] := List.getElem?_eq_getElem hlen
      rw [settle_bets_other_char db q ev hev hval i db.bets[i] hc
        (hnone db.bets[i] (List.getElem_mem hlen)), hc]
    · rw [List.getElem?_eq_none (Nat.le_of_not_lt hlen),
        List.getElem?_eq_none (le_of_eq_of_le (settle_bets_length db q ev hev hval)
          (Nat.le_of_not_lt hlen))]
  · intro uid
    exact settle_bettors_frame_char db q ev hev hval uid
      (fun b hb hbe _ _ => hnone b hb hbe)

/-- Witness for C10: `dbA` has no bets; settling "Draw" succeeds, stores
the settled event, and changes nothing else. -/
theorem C10_witness :
    (settle_event dbA ⟨1, "Draw"⟩).1 = .ok ⟨"settled"⟩ ∧
    (settle_event dbA ⟨1, "Draw"⟩).2.events 1 = some (settledEvent evA "Draw") ∧
    (settle_event dbA ⟨1, "Draw"⟩).2.events 2 = dbA.events 2 ∧
    (settle_event dbA ⟨1, "Draw"⟩).2.bets = dbA.bets ∧
    (settle_event dbA ⟨1, "Draw"⟩).2.bettors 1 = dbA.bettors 1 := by
  have h := C10_settle_without_bets dbA ⟨1, "Draw"⟩ evA rfl rfl (by decide)
  exact ⟨h.1, h.2.1, h.2.2.1 2 (by decide), h.2.2.2.1, h.2.2.2.2 1⟩

end Betting
